import Mathlib

/-
  Verification development for the nes-py NES emulation engine.

  The development shallowly embeds the engine sources:
    - common.hpp            (static_vector)
    - ppu.hpp               (PPU state and the inline OAM register interface)
    - emulator.hpp          (Core, Emulator, snapshot/restore, CYCLES_PER_FRAME)
    - emulator.cpp          (Core wiring, Core::step, Emulator::step)
    - lib_nes_env.cpp       (the slot-based backup/restore binding surface)
  Machine bytes are modelled as Nat values reduced mod 256 where the C++ type
  NES_Byte truncates, and 16-bit addresses as Nat values reduced mod 65536.
  Parts of the engine whose implementation files are not in the source tree
  (cpu, ppu.cpp bodies, buses, controller, mapper) are modelled from the
  specification; each such definition carries a doc comment saying so.
-/

namespace NES

/-- Embedding of static_vector from common.hpp: a fixed backing array of N
slots (modelled as a list that well-formed states keep at length N), plus a
logical element count current_size and a capacity reserved_size. -/
structure static_vector (N : Nat) (α : Type) where
  data : List α
  current_size : Nat
  reserved_size : Nat
deriving Repr, DecidableEq

/-- The default constructor of static_vector: the backing std::array is
value-initialized, current_size starts at 0 and reserved_size at N. -/
def static_vector.empty (N : Nat) {α : Type} (z : α) : static_vector N α :=
  ⟨List.replicate N z, 0, N⟩

/-- Well-formedness of a static_vector: the backing array has exactly N slots
and current_size and reserved_size respect the capacity ordering. -/
def static_vector.WF {N : Nat} {α : Type} (v : static_vector N α) : Prop :=
  v.data.length = N ∧ v.current_size ≤ v.reserved_size ∧ v.reserved_size ≤ N

instance {N : Nat} {α : Type} (v : static_vector N α) : Decidable v.WF := by
  unfold static_vector.WF; infer_instance

/-- static_vector::push_back: throws a length error when the container is
full, before writing anything; otherwise writes at index current_size and
increments current_size. -/
def static_vector.push_back {N : Nat} {α : Type} (v : static_vector N α)
    (value : α) : Except String (static_vector N α) :=
  if v.reserved_size ≤ v.current_size then
    .error "static_vector: container is full"
  else
    .ok { v with data := v.data.set v.current_size value,
                 current_size := v.current_size + 1 }

/-- static_vector::reserve: throws a length error when asked for more than the
fixed capacity N, before mutating anything; otherwise sets reserved_size and
clamps current_size down to it. -/
def static_vector.reserve {N : Nat} {α : Type} (v : static_vector N α)
    (new_capacity : Nat) : Except String (static_vector N α) :=
  if N < new_capacity then
    .error "static_vector: cannot reserve beyond max capacity"
  else
    .ok { v with reserved_size := new_capacity,
                 current_size := min v.current_size new_capacity }

/-- static_vector::resize: throws a length error when asked for more than the
current reserved capacity, before mutating anything; otherwise sets
current_size. -/
def static_vector.resize {N : Nat} {α : Type} (v : static_vector N α)
    (new_size : Nat) : Except String (static_vector N α) :=
  if v.reserved_size < new_size then
    .error "static_vector: cannot resize beyond reserved capacity"
  else
    .ok { v with current_size := new_size }

/-- static_vector::clear: resets the logical element count. -/
def static_vector.clear {N : Nat} {α : Type} (v : static_vector N α) :
    static_vector N α :=
  { v with current_size := 0 }

/-- One operation of the static_vector mutating interface. -/
inductive SVOp (α : Type) where
  | push_back (value : α)
  | reserve (new_capacity : Nat)
  | resize (new_size : Nat)
  | clear
deriving Repr, DecidableEq

/-- Apply one static_vector operation, propagating the length error of the
throwing operations. -/
def static_vector.apply {N : Nat} {α : Type} (v : static_vector N α) :
    SVOp α → Except String (static_vector N α)
  | .push_back value => v.push_back value
  | .reserve new_capacity => v.reserve new_capacity
  | .resize new_size => v.resize new_size
  | .clear => .ok v.clear

/-- Run a sequence of static_vector operations; a throwing operation leaves
the container exactly as it was (every throw in the C++ happens before any
mutation), and the sequence continues. -/
def static_vector.run {N : Nat} {α : Type} (v : static_vector N α)
    (ops : List (SVOp α)) : static_vector N α :=
  ops.foldl (fun w op => match w.apply op with
    | .ok w2 => w2
    | .error _ => w) v

/-- The number of visible scan lines, from ppu.hpp. -/
def VISIBLE_SCANLINES : Nat := 240

/-- The number of visible dots per scan line, from ppu.hpp. -/
def SCANLINE_VISIBLE_DOTS : Nat := 256

/-- The number of cycles per scanline, from ppu.hpp. -/
def SCANLINE_CYCLE_LENGTH : Nat := 341

/-- The last cycle of a scan line, from ppu.hpp. -/
def SCANLINE_END_CYCLE : Nat := 341

/-- The last scanline per frame, from ppu.hpp. -/
def FRAME_END_SCANLINE : Nat := 261

/-- The size of OAM memory in bytes: 64 sprites of 4 bytes, from ppu.hpp. -/
def OAM_SIZE : Nat := 64 * 4

/-- The pipeline state of the PPU, from ppu.hpp. -/
inductive PipelineState where
  | PRE_RENDER
  | RENDER
  | POST_RENDER
  | VERTICAL_BLANK
deriving Repr, DecidableEq

/-- A pattern-table character page selector, from ppu.hpp. -/
inductive CharacterPage where
  | LOW
  | HIGH
deriving Repr, DecidableEq

/-- Embedding of the PPU state from ppu.hpp. The std::function vblank
callback is modelled by a flag recording whether the interrupt wiring has
been installed; byte and address registers are Nat values kept below 256
and 65536 respectively. -/
structure PPU where
  vblank_callback : Bool
  sprite_memory : static_vector (64 * 4) Nat
  scanline_sprites : static_vector 8 Nat
  pipeline_state : PipelineState
  cycles : Nat
  scanline : Nat
  is_even_frame : Bool
  is_vblank : Bool
  is_sprite_zero_hit : Bool
  data_address : Nat
  temp_address : Nat
  fine_x_scroll : Nat
  is_first_write : Bool
  data_buffer : Nat
  sprite_data_address : Nat
  is_showing_sprites : Bool
  is_showing_background : Bool
  is_hiding_edge_sprites : Bool
  is_hiding_edge_background : Bool
  is_long_sprites : Bool
  is_interrupting : Bool
  background_page : CharacterPage
  sprite_page : CharacterPage
  data_address_increment : Nat
deriving Repr, DecidableEq

/-- PPU::set_OAM_address from ppu.hpp: stores the byte-valued argument into
sprite_data_address (the NES_Byte parameter truncates to 8 bits). -/
def PPU.set_OAM_address (p : PPU) (address : Nat) : PPU :=
  { p with sprite_data_address := address % 256 }

/-- PPU::get_OAM_data from ppu.hpp: reads the OAM byte at
sprite_data_address; the address is not modified. -/
def PPU.get_OAM_data (p : PPU) : Nat × PPU :=
  (p.sprite_memory.data.getD p.sprite_data_address 0, p)

/-- PPU::set_OAM_data from ppu.hpp: writes the byte at sprite_data_address
and post-increments the 8-bit address, wrapping mod 256. The write goes
through operator[] of the backing array, so current_size is untouched. -/
def PPU.set_OAM_data (p : PPU) (value : Nat) : PPU :=
  { p with
    sprite_memory :=
      { p.sprite_memory with
        data := p.sprite_memory.data.set p.sprite_data_address (value % 256) },
    sprite_data_address := (p.sprite_data_address + 1) % 256 }

/-- Write a list of bytes through the OAM data register, one
PPU::set_OAM_data call per element, in order. -/
def PPU.write_OAM_list (p : PPU) (vs : List Nat) : PPU :=
  vs.foldl PPU.set_OAM_data p

/-- Modelled from the spec: the body of PPU::get_status is not under src
(ppu.cpp is absent; ppu.hpp only declares it). Per the spec, reading the
status register returns the vblank and sprite-zero-hit flags in the top bits
and has the side effect of clearing the vblank flag and resetting the
first-write latch of the two-write scroll/address protocol. -/
def PPU.get_status (p : PPU) : Nat × PPU :=
  ((if p.is_vblank then 128 else 0) + (if p.is_sprite_zero_hit then 64 else 0),
   { p with is_vblank := false, is_first_write := true })

/-- Decide whether OAM sprite i intersects the scanline the PPU is currently
evaluating, given the sprite height configured by the control register. -/
def PPU.sprite_in_range (p : PPU) (i : Nat) : Bool :=
  let y := p.sprite_memory.data.getD (4 * i) 0
  let range := if p.is_long_sprites then 16 else 8
  decide (y ≤ p.scanline ∧ p.scanline < y + range)

/-- One evaluation step of the scanline sprite buffer: push the sprite index
through static_vector::push_back when the buffer still has room, and drop it
otherwise (the buffer holds at most 8 sprites). -/
def sprite_push (b : static_vector 8 Nat) (i : Nat) : static_vector 8 Nat :=
  if b.current_size < b.reserved_size then
    match b.push_back i with
    | .ok b2 => b2
    | .error _ => b
  else b

/-- Fold a selector over a list of candidate sprite indices, collecting the
selected ones into the bounded scanline buffer. -/
def collect8 (sel : Nat → Bool) (l : List Nat) (b : static_vector 8 Nat) :
    static_vector 8 Nat :=
  l.foldl (fun b i => if sel i then sprite_push b i else b) b

/-- Modelled from the spec: the sprite-evaluation code of ppu.cpp is not under
src. Per the spec, at the end of each rendering scanline the PPU scans the 64
OAM entries in order and collects the indices of the sprites intersecting the
scanline into the cleared scanline_sprites buffer, keeping at most 8; the 9th
and later intersecting sprites are dropped. -/
def PPU.evaluate_sprites (p : PPU) : PPU :=
  { p with scanline_sprites :=
      collect8 p.sprite_in_range (List.range 64) (static_vector.empty 8 0) }

/-- The NES framebuffer type from ppu.hpp, 240 rows of 256 packed pixels. -/
abbrev NESFrameBufferT := List (List Nat)

/-- Write one pixel into the framebuffer at the given row and column. -/
def write_pixel (fb : NESFrameBufferT) (row col v : Nat) : NESFrameBufferT :=
  fb.set row ((fb.getD row []).set col v)

/-- Modelled from the spec: the per-dot color compositing of ppu.cpp is not
under src; the model abstracts the composited pixel as a deterministic
function of the rendering state at this dot. -/
def PPU.render_pixel (p : PPU) (x : Nat) : Nat :=
  (if p.is_showing_background then 1 else 0)
  + (if p.is_showing_sprites then 2 else 0)
  + 4 * (p.data_address % 64) + 256 * (x % 8) + 4096 * (p.scanline % 8)

/-- Modelled from the spec: PPU::reset in ppu.cpp is not under src; per the
spec, reset zeroes the timing state, registers and flags, returning the
pipeline to the pre-render state with a data-address increment of 1. Every
scalar data member is assigned; the memories and the interrupt wiring are
left alone. -/
def PPU.reset (p : PPU) : PPU :=
  { p with
    pipeline_state := .PRE_RENDER
    cycles := 0
    scanline := 0
    is_even_frame := true
    is_vblank := false
    is_sprite_zero_hit := false
    data_address := 0
    temp_address := 0
    fine_x_scroll := 0
    is_first_write := true
    data_buffer := 0
    sprite_data_address := 0
    is_showing_sprites := false
    is_showing_background := false
    is_hiding_edge_sprites := false
    is_hiding_edge_background := false
    is_long_sprites := false
    is_interrupting := false
    background_page := .LOW
    sprite_page := .LOW
    data_address_increment := 1 }

/-- Modelled from the spec: PPU::cycle in ppu.cpp is not under src. One PPU
dot: the pipeline state machine over (scanline, dot) counters per spec §4.2 —
the pre-render line clears the per-frame flags and applies the odd-frame
one-dot skip when rendering is enabled; rendering scanlines write one visible
pixel per dot and evaluate sprites for the next scanline at end of line;
the post-render line idles into vertical blank; vertical blank sets the
vblank flag at entry of scanline 241 and requests the non-maskable interrupt
through the wired callback. Returns the new PPU, the framebuffer, and
whether the NMI callback fires on this dot. -/
def PPU.cycle (p : PPU) (fb : NESFrameBufferT) :
    PPU × NESFrameBufferT × Bool :=
  match p.pipeline_state with
  | .PRE_RENDER =>
    let p1 := if p.cycles == 1
      then { p with is_vblank := false, is_sprite_zero_hit := false } else p
    let skip : Bool :=
      !p1.is_even_frame && p1.is_showing_background && p1.is_showing_sprites
    let line_end := if skip then SCANLINE_END_CYCLE - 1 else SCANLINE_END_CYCLE
    if line_end ≤ p1.cycles + 1 then
      ({ p1 with pipeline_state := .RENDER, cycles := 0, scanline := 0 },
       fb, false)
    else ({ p1 with cycles := p1.cycles + 1 }, fb, false)
  | .RENDER =>
    let fb1 := if 1 ≤ p.cycles ∧ p.cycles ≤ SCANLINE_VISIBLE_DOTS then
        write_pixel fb p.scanline (p.cycles - 1) (p.render_pixel (p.cycles - 1))
      else fb
    if SCANLINE_END_CYCLE ≤ p.cycles + 1 then
      let p1 := p.evaluate_sprites
      let p2 := { p1 with cycles := 0, scanline := p1.scanline + 1 }
      if VISIBLE_SCANLINES ≤ p2.scanline then
        ({ p2 with pipeline_state := .POST_RENDER }, fb1, false)
      else (p2, fb1, false)
    else ({ p with cycles := p.cycles + 1 }, fb1, false)
  | .POST_RENDER =>
    if SCANLINE_END_CYCLE ≤ p.cycles + 1 then
      ({ p with pipeline_state := .VERTICAL_BLANK, cycles := 0,
                scanline := p.scanline + 1 }, fb, false)
    else ({ p with cycles := p.cycles + 1 }, fb, false)
  | .VERTICAL_BLANK =>
    let entry : Bool := p.cycles == 1 && p.scanline == 241
    let p1 := if entry then { p with is_vblank := true } else p
    let fire : Bool := entry && p1.is_interrupting && p1.vblank_callback
    if SCANLINE_END_CYCLE ≤ p1.cycles + 1 then
      if FRAME_END_SCANLINE ≤ p1.scanline + 1 then
        ({ p1 with pipeline_state := .PRE_RENDER, cycles := 0,
                   scanline := p1.scanline + 1,
                   is_even_frame := !p1.is_even_frame }, fb, fire)
      else ({ p1 with cycles := 0, scanline := p1.scanline + 1 }, fb, fire)
    else ({ p1 with cycles := p1.cycles + 1 }, fb, fire)

/-- Modelled from the spec: controller.hpp is not under src. One gamepad is
an input shift register over an externally written input byte, with a strobe
flag; the read pointer wraps after 8 reads while strobe is low. -/
structure Controller where
  joypad_buffer : Nat
  strobe : Bool
  index : Nat
deriving Repr, DecidableEq

/-- Modelled from the spec: Controller::strobe latches the strobe flag from
bit 0 of the written byte and rewinds the read pointer while strobe is high. -/
def Controller.strobe_write (c : Controller) (b : Nat) : Controller :=
  if b % 2 == 1 then { c with strobe := true, index := 0 }
  else { c with strobe := false }

/-- Modelled from the spec: Controller::read shifts one button bit out of the
input byte; while strobe is high it keeps returning the first button. -/
def Controller.read (c : Controller) : Nat × Controller :=
  if c.strobe then (c.joypad_buffer % 2, c)
  else ((if c.joypad_buffer.testBit (c.index % 8) then 1 else 0),
        { c with index := (c.index + 1) % 8 })

/-- Modelled from the spec: cartridge.hpp and the mapper classes are not
under src. The mapper is a pure address translation over the cartridge
banks, parameterized by bank-select state that only mapper register writes
mutate; it is shared by reference, so it lives outside the Core value. -/
structure Mapper where
  prg : List Nat
  chr : List Nat
  bank : Nat
deriving Repr, DecidableEq

/-- Modelled from the spec: a CPU-side mapper read translates the address
through the current bank state into the program ROM. -/
def Mapper.read (m : Mapper) (address : Nat) : Nat :=
  m.prg.getD (m.bank * 0x4000 + address % 0x8000) 0

/-- Modelled from the spec: a PPU-side mapper read fetches from the
graphics banks. -/
def Mapper.read_chr (m : Mapper) (address : Nat) : Nat :=
  m.chr.getD (address % 0x2000) 0

/-- The read dispatch targets Core wires into the main bus in emulator.cpp:
each names the owning PPU or controller method the callback calls. -/
inductive ReadTarget where
  | ppu_status
  | ppu_data
  | joy1_read
  | joy2_read
  | oam_data
deriving Repr, DecidableEq

/-- The write dispatch targets Core wires into the main bus in emulator.cpp. -/
inductive WriteTarget where
  | ppu_control
  | ppu_mask
  | oam_address
  | ppu_address
  | ppu_scroll
  | ppu_data
  | oam_dma
  | joy_strobe
  | oam_data
deriving Repr, DecidableEq

/-- PPU register addresses in CPU space (the IORegisters values of the main
bus header, which is not under src; these are the fixed NES register
locations used by the emulator.cpp wiring). -/
def PPUCTRL : Nat := 0x2000

/-- PPUMASK register address. -/
def PPUMASK : Nat := 0x2001

/-- PPUSTATUS register address. -/
def PPUSTATUS : Nat := 0x2002

/-- OAMADDR register address. -/
def OAMADDR : Nat := 0x2003

/-- OAMDATA register address. -/
def OAMDATA : Nat := 0x2004

/-- PPUSCROL register address. -/
def PPUSCROL : Nat := 0x2005

/-- PPUADDR register address. -/
def PPUADDR : Nat := 0x2006

/-- PPUDATA register address. -/
def PPUDATA : Nat := 0x2007

/-- OAMDMA register address. -/
def OAMDMA : Nat := 0x4014

/-- JOY1 register address. -/
def JOY1 : Nat := 0x4016

/-- JOY2 register address. -/
def JOY2 : Nat := 0x4017

/-- Modelled from the spec: main_bus.hpp is not under src. The CPU-visible
bus: 2 KiB of RAM mirrored across its window, and the register dispatch
tables installed once by Core, keyed by exact address and holding the
dispatch target of the owning component. -/
structure MainBus where
  ram : List Nat
  read_callbacks : List (Nat × ReadTarget)
  write_callbacks : List (Nat × WriteTarget)
deriving Repr, DecidableEq

/-- Modelled from the spec: MainBus::get_page_pointer exposes one 256-byte
page of RAM for OAM DMA, honoring the RAM mirroring. -/
def MainBus.get_page (bus : MainBus) (page : Nat) : List Nat :=
  (List.range 256).map (fun i => bus.ram.getD ((page * 256 + i) % 0x800) 0)

/-- Modelled from the spec: picture_bus.hpp is not under src. The PPU-visible
bus: nametable RAM with mirroring and 32 bytes of palette RAM; pattern
fetches go through the mapper. -/
structure PictureBus where
  nametable_ram : List Nat
  palette : List Nat
deriving Repr, DecidableEq

/-- Modelled from the spec: a PictureBus read resolves pattern tables through
the mapper, nametables through the mirrored RAM, and palette entries with the
index masked to the valid range. -/
def PictureBus.read (pb : PictureBus) (m : Mapper) (address : Nat) : Nat :=
  let a := address % 0x4000
  if a < 0x2000 then m.read_chr a
  else if a < 0x3F00 then pb.nametable_ram.getD (a % 0x800) 0
  else pb.palette.getD (a % 0x20) 0

/-- Modelled from the spec: a PictureBus write stores into the mirrored
nametable RAM or the masked palette RAM. -/
def PictureBus.write (pb : PictureBus) (address value : Nat) : PictureBus :=
  let a := address % 0x4000
  if a < 0x2000 then pb
  else if a < 0x3F00 then
    { pb with nametable_ram := pb.nametable_ram.set (a % 0x800) (value % 256) }
  else { pb with palette := pb.palette.set (a % 0x20) (value % 256) }

/-- Modelled from the spec: PPU::control is not under src; the control byte
configures the data-address increment (1 or 32), the sprite height, the
pattern pages, the NMI enable and the nametable bits of the temporary
address. -/
def PPU.control (p : PPU) (ctrl : Nat) : PPU :=
  { p with
    data_address_increment := if ctrl.testBit 2 then 32 else 1
    is_long_sprites := ctrl.testBit 5
    is_interrupting := ctrl.testBit 7
    background_page := if ctrl.testBit 4 then .HIGH else .LOW
    sprite_page := if ctrl.testBit 3 then .HIGH else .LOW
    temp_address :=
      (p.temp_address / 0x1000) * 0x1000 + (ctrl % 4) * 0x400
        + p.temp_address % 0x400 }

/-- Modelled from the spec: PPU::set_mask is not under src; the mask byte
configures the four show/hide rendering flags. -/
def PPU.set_mask (p : PPU) (mask : Nat) : PPU :=
  { p with
    is_hiding_edge_background := !(mask.testBit 1)
    is_hiding_edge_sprites := !(mask.testBit 2)
    is_showing_background := mask.testBit 3
    is_showing_sprites := mask.testBit 4 }

/-- Modelled from the spec: PPU::set_scroll is not under src; it implements
the first half or second half of the two-write scroll protocol, toggling the
first-write latch. -/
def PPU.set_scroll (p : PPU) (scroll : Nat) : PPU :=
  if p.is_first_write then
    { p with
      fine_x_scroll := scroll % 8
      temp_address := (p.temp_address / 0x20) * 0x20 + (scroll % 256) / 8
      is_first_write := false }
  else
    { p with
      temp_address :=
        p.temp_address % 0x20 + ((scroll % 256) / 8) * 0x20
          + (scroll % 8) * 0x1000
      is_first_write := true }

/-- Modelled from the spec: PPU::set_data_address is not under src; it
implements the two-write address protocol: the first write latches the high
six address bits, the second write supplies the low byte and publishes the
full data address, resetting the latch. -/
def PPU.set_data_address (p : PPU) (address : Nat) : PPU :=
  if p.is_first_write then
    { p with
      temp_address := p.temp_address % 0x100 + (address % 0x40) * 0x100
      is_first_write := false }
  else
    { p with
      temp_address := (p.temp_address / 0x100) * 0x100 + address % 256
      data_address := (p.temp_address / 0x100) * 0x100 + address % 256
      is_first_write := true }

/-- Modelled from the spec: PPU::get_data is not under src; reading the data
register returns the buffered byte, refills the buffer from the picture bus
at the current data address, and auto-increments the data address by the
configured step. -/
def PPU.get_data (p : PPU) (pb : PictureBus) (m : Mapper) : Nat × PPU :=
  let value := pb.read m p.data_address
  (p.data_buffer,
   { p with
     data_buffer := value
     data_address := (p.data_address + p.data_address_increment) % 0x10000 })

/-- Modelled from the spec: PPU::set_data is not under src; writing the data
register stores through the picture bus at the current data address and
auto-increments the data address by the configured step. -/
def PPU.set_data (p : PPU) (pb : PictureBus) (value : Nat) :
    PictureBus × PPU :=
  (pb.write p.data_address value,
   { p with
     data_address := (p.data_address + p.data_address_increment) % 0x10000 })

/-- Modelled from the spec: PPU::do_DMA is not under src; it bulk-copies one
256-byte page into OAM through the auto-incrementing OAM write port, so the
copy starts at the current OAM address and wraps, ending with the address
back where it started. -/
def PPU.do_DMA (p : PPU) (page : List Nat) : PPU :=
  (List.range 256).foldl (fun q i => q.set_OAM_data (page.getD i 0)) p

/-- Embedding of the CPU register file. The register names follow the spec
(§3, §4.1); cpu.hpp is not under src, but only these fields and the
DMA-stall and pending-cycle counters are relied on. -/
structure CPU where
  register_PC : Nat
  register_SP : Nat
  register_A : Nat
  register_X : Nat
  register_Y : Nat
  flags : Nat
  skip_cycles : Nat
  pending_cycles : Nat
deriving Repr, DecidableEq

/-- Modelled from the spec: CPU::skip_DMA_cycles records that the next
cycles are consumed servicing the OAM DMA transfer instead of instruction
work. -/
def CPU.skip_DMA_cycles (c : CPU) : CPU :=
  { c with skip_cycles := c.skip_cycles + 513 }

/-- Embedding of the Core aggregate from emulator.hpp: the main bus, CPU,
PPU and picture bus, owned by value. -/
structure Core where
  bus : MainBus
  cpu : CPU
  ppu : PPU
  picture_bus : PictureBus
deriving Repr, DecidableEq

/-- Core::initialize from emulator.cpp: installs the read and write register
callbacks on the main bus, each represented by the dispatch target naming
the owning PPU or controller method it calls, and installs the PPU-to-CPU
non-maskable-interrupt callback. -/
def Core.install_wiring (c : Core) : Core :=
  { c with
    bus := { c.bus with
      read_callbacks :=
        [(PPUSTATUS, .ppu_status), (PPUDATA, .ppu_data), (JOY1, .joy1_read),
         (JOY2, .joy2_read), (OAMDATA, .oam_data)]
      write_callbacks :=
        [(PPUCTRL, .ppu_control), (PPUMASK, .ppu_mask),
         (OAMADDR, .oam_address), (PPUADDR, .ppu_address),
         (PPUSCROL, .ppu_scroll), (PPUDATA, .ppu_data), (OAMDMA, .oam_dma),
         (JOY1, .joy_strobe), (OAMDATA, .oam_data)] }
    ppu := { c.ppu with vblank_callback := true } }

/-- The full live engine state: the Core value plus the collaborators the
Core callbacks reach (controllers, the shared mapper) and the output
framebuffer owned by Emulator. -/
structure EngineState where
  core : Core
  controllers : Controller × Controller
  mapper : Mapper
  framebuffer : NESFrameBufferT
deriving Repr, DecidableEq

/-- Dispatch a wired register read to the owning component, per the
emulator.cpp read callbacks. -/
def dispatch_read (s : EngineState) : ReadTarget → Nat × EngineState
  | .ppu_status =>
    let (v, ppu1) := s.core.ppu.get_status
    (v, { s with core := { s.core with ppu := ppu1 } })
  | .ppu_data =>
    let (v, ppu1) := s.core.ppu.get_data s.core.picture_bus s.mapper
    (v, { s with core := { s.core with ppu := ppu1 } })
  | .joy1_read =>
    let (v, c1) := s.controllers.1.read
    (v, { s with controllers := (c1, s.controllers.2) })
  | .joy2_read =>
    let (v, c2) := s.controllers.2.read
    (v, { s with controllers := (s.controllers.1, c2) })
  | .oam_data =>
    let (v, ppu1) := s.core.ppu.get_OAM_data
    (v, { s with core := { s.core with ppu := ppu1 } })

/-- Modelled from the spec: the MainBus read dispatch (main_bus.hpp is not
under src): RAM window mirrored mod 0x800, then the exact-address register
table, else the mapper. -/
def bus_read (s : EngineState) (address : Nat) : Nat × EngineState :=
  let a := address % 0x10000
  if a < 0x2000 then (s.core.bus.ram.getD (a % 0x800) 0, s)
  else match s.core.bus.read_callbacks.lookup a with
    | some t => dispatch_read s t
    | none => (s.mapper.read a, s)

/-- Dispatch a wired register write to the owning component, per the
emulator.cpp write callbacks. -/
def dispatch_write (s : EngineState) (t : WriteTarget) (b : Nat) :
    EngineState :=
  match t with
  | .ppu_control =>
    { s with core := { s.core with ppu := s.core.ppu.control b } }
  | .ppu_mask =>
    { s with core := { s.core with ppu := s.core.ppu.set_mask b } }
  | .oam_address =>
    { s with core := { s.core with ppu := s.core.ppu.set_OAM_address b } }
  | .ppu_address =>
    { s with core := { s.core with ppu := s.core.ppu.set_data_address b } }
  | .ppu_scroll =>
    { s with core := { s.core with ppu := s.core.ppu.set_scroll b } }
  | .ppu_data =>
    let (pb1, ppu1) := s.core.ppu.set_data s.core.picture_bus b
    { s with core := { s.core with ppu := ppu1, picture_bus := pb1 } }
  | .oam_dma =>
    let cpu1 := s.core.cpu.skip_DMA_cycles
    let ppu1 := s.core.ppu.do_DMA (s.core.bus.get_page b)
    { s with core := { s.core with cpu := cpu1, ppu := ppu1 } }
  | .joy_strobe =>
    { s with controllers := (s.controllers.1.strobe_write b,
                             s.controllers.2.strobe_write b) }
  | .oam_data =>
    { s with core := { s.core with ppu := s.core.ppu.set_OAM_data b } }

/-- Modelled from the spec: the MainBus write dispatch: RAM window mirrored
mod 0x800, then the exact-address register table, else a mapper register
write mutating bank-select state. -/
def bus_write (s : EngineState) (address value : Nat) : EngineState :=
  let a := address % 0x10000
  let v := value % 256
  if a < 0x2000 then
    { s with core := { s.core with bus :=
      { s.core.bus with ram := s.core.bus.ram.set (a % 0x800) v } } }
  else match s.core.bus.write_callbacks.lookup a with
    | some t => dispatch_write s t v
    | none => { s with mapper := { s.mapper with bank := v } }

/-- Read a 16-bit little-endian vector through the main bus. -/
def read_address16 (s : EngineState) (address : Nat) : Nat × EngineState :=
  let (lo, s1) := bus_read s address
  let (hi, s2) := bus_read s1 (address + 1)
  ((lo + 256 * hi) % 0x10000, s2)

/-- Modelled from the spec: CPU::reset is not under src; per §4.1 it loads
the program counter from the fixed reset vector read through the bus and
establishes the documented power-on register and flag state, clearing the
stall and pending-cycle counters. Every CPU field is assigned. -/
def cpu_reset (s : EngineState) : EngineState :=
  let (pc, s1) := read_address16 s 0xFFFC
  { s1 with core := { s1.core with cpu :=
    { register_PC := pc
      register_SP := 0xFD
      register_A := 0
      register_X := 0
      register_Y := 0
      flags := 0x34
      skip_cycles := 0
      pending_cycles := 0 } } }

/-- Modelled from the spec: CPU::interrupt for the non-maskable kind: pushes
the program counter and status onto the stack, sets the interrupt-disable
flag, and vectors through the fixed NMI vector; it cannot be suppressed by
the interrupt-disable flag. -/
def cpu_interrupt_NMI (s : EngineState) : EngineState :=
  let cpu := s.core.cpu
  let s1 := bus_write s (0x100 + cpu.register_SP % 256) (cpu.register_PC / 256)
  let s2 := bus_write s1 (0x100 + (cpu.register_SP + 255) % 256)
    (cpu.register_PC % 256)
  let s3 := bus_write s2 (0x100 + (cpu.register_SP + 254) % 256) cpu.flags
  let (pc, s4) := read_address16 s3 0xFFFA
  { s4 with core := { s4.core with cpu :=
    { s4.core.cpu with
      register_PC := pc
      register_SP := (s4.core.cpu.register_SP + 253) % 256
      flags := s4.core.cpu.flags % 256 ||| 4
      pending_cycles := s4.core.cpu.pending_cycles + 7 } } }

/-- Modelled from the spec: CPU::cycle is not under src; per §4.1, a pending
DMA-stall cycle is consumed doing no instruction work, a pending instruction
latency cycle is consumed likewise, and otherwise the next instruction is
fetched through the bus. The per-opcode decode and execute tables are not in
the sources and are abstracted: one instruction is a single opcode fetch
advancing the program counter and charging a data-dependent latency. -/
def cpu_cycle (s : EngineState) : EngineState :=
  let cpu := s.core.cpu
  if 0 < cpu.skip_cycles then
    { s with core := { s.core with cpu :=
      { cpu with skip_cycles := cpu.skip_cycles - 1 } } }
  else if 0 < cpu.pending_cycles then
    { s with core := { s.core with cpu :=
      { cpu with pending_cycles := cpu.pending_cycles - 1 } } }
  else
    let (op, s1) := bus_read s cpu.register_PC
    { s1 with core := { s1.core with cpu :=
      { s1.core.cpu with
        register_PC := (s1.core.cpu.register_PC + 1) % 0x10000
        pending_cycles := op % 8 } } }

/-- One engine-level PPU dot: run PPU::cycle against the picture bus and the
framebuffer, then deliver the non-maskable interrupt through the wired
callback when the PPU requests it. -/
def engine_ppu_cycle_state (s : EngineState) : EngineState :=
  let (ppu1, fb1, nmi) := s.core.ppu.cycle s.framebuffer
  let s1 := { s with core := { s.core with ppu := ppu1 }, framebuffer := fb1 }
  if nmi then cpu_interrupt_NMI s1 else s1

/-- The observable component-advance events of one engine step. -/
inductive Event where
  | ppuCycle
  | cpuCycle
deriving Repr, DecidableEq

/-- Instrumented PPU cycle: the state transition plus its advance event. -/
def engine_ppu_cycle (s : EngineState) : EngineState × List Event :=
  (engine_ppu_cycle_state s, [.ppuCycle])

/-- Instrumented CPU cycle: the state transition plus its advance event. -/
def engine_cpu_cycle (s : EngineState) : EngineState × List Event :=
  (cpu_cycle s, [.cpuCycle])

/-- Core::ppu_step from emulator.cpp: three PPU cycles. -/
def Core.ppu_step (s : EngineState) : EngineState × List Event :=
  let (s1, e1) := engine_ppu_cycle s
  let (s2, e2) := engine_ppu_cycle s1
  let (s3, e3) := engine_ppu_cycle s2
  (s3, e1 ++ e2 ++ e3)

/-- Core::step from emulator.cpp: Core::ppu_step (three PPU cycles) followed
by one CPU cycle. -/
def Core.step (s : EngineState) : EngineState × List Event :=
  let (s1, e1) := Core.ppu_step s
  let (s2, e2) := engine_cpu_cycle s1
  (s2, e1 ++ e2)

/-- The number of cycles in one frame, from emulator.hpp. -/
def CYCLES_PER_FRAME : Nat := 29781

/-- n sequential Core::step calls, accumulating the advance events. -/
def core_steps (n : Nat) (s : EngineState) : EngineState × List Event :=
  match n with
  | 0 => (s, [])
  | Nat.succ m =>
    ((core_steps m (Core.step s).1).1,
     (Core.step s).2 ++ (core_steps m (Core.step s).1).2)

/-- Emulator::step from emulator.cpp: renders a single frame by repeating
Core::step CYCLES_PER_FRAME times, a fixed loop bound. -/
def Emulator.step (s : EngineState) : EngineState × List Event :=
  core_steps CYCLES_PER_FRAME s

/-- Emulator::reset from emulator.hpp: core.cpu.reset(core.bus) then
core.ppu.reset(). -/
def Emulator.reset (s : EngineState) : EngineState :=
  let s1 := cpu_reset s
  { s1 with core := { s1.core with ppu := s1.core.ppu.reset } }

/-- The Emulator value: the live engine plus the backup slots. The slot
array itself is modelled from the spec (the slot-based backup/restore member
functions that lib_nes_env.cpp binds are not under src); its fixed capacity
NUM_BACKUP_SLOTS is the length of the slot list. -/
structure Emulator where
  engine : EngineState
  backup_slots : List Core
deriving Repr, DecidableEq

/-- Emulator::snapshot from emulator.hpp: copies the entire value state of
the live Core out of the engine. -/
def Emulator.snapshot (e : Emulator) : Core := e.engine.core

/-- Emulator::restore from emulator.hpp: copies a Core value into the live
core in place, leaving every other part of the emulator alone. -/
def Emulator.restore_core (e : Emulator) (core : Core) : Emulator :=
  { e with engine := { e.engine with core := core } }

/-- Modelled from the spec: Emulator::backup(slot) of the binding surface is
not under src. A valid slot stores a snapshot of the live Core into that
slot; an out-of-range slot index is a reported error that changes nothing. -/
def Emulator.backup (e : Emulator) (slot : Int) : Option String × Emulator :=
  if 0 ≤ slot ∧ slot.toNat < e.backup_slots.length then
    (none, { e with backup_slots := e.backup_slots.set slot.toNat e.snapshot })
  else (some "backup slot index out of range", e)

/-- Modelled from the spec: Emulator::restore(slot) of the binding surface
is not under src. A valid slot copies the stored Core value into the live
core in place; an out-of-range slot index is a reported error that changes
nothing. -/
def Emulator.restore (e : Emulator) (slot : Int) : Option String × Emulator :=
  if 0 ≤ slot ∧ slot.toNat < e.backup_slots.length then
    (none, e.restore_core (e.backup_slots.getD slot.toNat e.engine.core))
  else (some "restore slot index out of range", e)

/-- The Emulator constructor from emulator.cpp: installs the wiring on the
core, zeroes the framebuffer, loads the cartridge and attaches the mapper to
the buses. The scalar CPU and PPU data members are left untouched by the C++
member constructors, so they arrive as explicit junk arguments here, while
the static_vector members are value-initialized and the interrupt callback
starts unwired; memories modelled from the spec start zeroed. -/
def construct_engine (junk_cpu : CPU) (junk_ppu : PPU) (mapper : Mapper)
    (inputs : Nat × Nat) : EngineState :=
  let core0 : Core :=
    { bus := { ram := List.replicate 0x800 0, read_callbacks := [],
               write_callbacks := [] }
      cpu := junk_cpu
      ppu := { junk_ppu with
               vblank_callback := false
               sprite_memory := static_vector.empty (64 * 4) 0
               scanline_sprites := static_vector.empty 8 0 }
      picture_bus := { nametable_ram := List.replicate 0x800 0,
                       palette := List.replicate 0x20 0 } }
  { core := core0.install_wiring
    controllers := ({ joypad_buffer := inputs.1 % 256, strobe := false,
                      index := 0 },
                    { joypad_buffer := inputs.2 % 256, strobe := false,
                      index := 0 })
    mapper := mapper
    framebuffer := List.replicate VISIBLE_SCANLINES
      (List.replicate SCANLINE_VISIBLE_DOTS 0) }

/-- The external driver writing the two controller input bytes for the next
frame (the binding exposes the controller byte buffers to the host). -/
def set_inputs (s : EngineState) (inputs : Nat × Nat) : EngineState :=
  { s with controllers :=
      ({ s.controllers.1 with joypad_buffer := inputs.1 % 256 },
       { s.controllers.2 with joypad_buffer := inputs.2 % 256 }) }

/-- Step one full frame per element of the input schedule, writing the
controller bytes before each frame as the external control loop does. -/
def run_frames (s : EngineState) (inputs : List (Nat × Nat)) : EngineState :=
  inputs.foldl (fun s inp => (Emulator.step (set_inputs s inp)).1) s

/-- A concrete PPU state, used as a sample input in witness theorems: the
state a PPU has on entry to vertical blank with zeroed memories. -/
def sample_ppu : PPU where
  vblank_callback := true
  sprite_memory := static_vector.empty (64 * 4) 0
  scanline_sprites := static_vector.empty 8 0
  pipeline_state := .VERTICAL_BLANK
  cycles := 1
  scanline := 241
  is_even_frame := true
  is_vblank := true
  is_sprite_zero_hit := false
  data_address := 0
  temp_address := 0
  fine_x_scroll := 0
  is_first_write := false
  data_buffer := 0
  sprite_data_address := 0
  is_showing_sprites := true
  is_showing_background := true
  is_hiding_edge_sprites := false
  is_hiding_edge_background := false
  is_long_sprites := false
  is_interrupting := false
  background_page := .LOW
  sprite_page := .LOW
  data_address_increment := 1

/-- A concrete CPU state used as a sample input in witness theorems. -/
def sample_cpu : CPU where
  register_PC := 0x8000
  register_SP := 0xFD
  register_A := 0
  register_X := 0
  register_Y := 0
  flags := 0x34
  skip_cycles := 0
  pending_cycles := 0

/-- A concrete mapper used as a sample input in witness theorems. -/
def sample_mapper : Mapper where
  prg := [0x00, 0x80]
  chr := []
  bank := 0

/-- A concrete engine state used as a sample input in witness theorems. -/
def sample_engine : EngineState :=
  Emulator.reset (construct_engine sample_cpu sample_ppu sample_mapper (0, 0))

/-- A concrete emulator with four backup slots, used as a sample input in
witness theorems. -/
def sample_emulator : Emulator where
  engine := sample_engine
  backup_slots := List.replicate 4 sample_engine.core

end NES

namespace NES

theorem list_getD_set_ne {α : Type} (l : List α) (j : Nat) (v : α) (i : Nat)
    (d : α) (h : i ≠ j) : (l.set j v).getD i d = l.getD i d := by
  induction l generalizing i j with
  | nil => rfl
  | cons a l ih =>
    cases j with
    | zero =>
      cases i with
      | zero => exact absurd rfl h
      | succ i => simp [List.getD]
    | succ j =>
      cases i with
      | zero => simp [List.getD]
      | succ i =>
        simpa [List.getD] using ih j i (fun hc => h (by omega))

theorem list_getD_set_eq {α : Type} (l : List α) (i : Nat) (v d : α)
    (h : i < l.length) : (l.set i v).getD i d = v := by
  induction l generalizing i with
  | nil => simp at h
  | cons a l ih =>
    cases i with
    | zero => simp [List.getD]
    | succ i => simpa [List.getD] using ih i (by simpa using h)

theorem write_OAM_addr (vs : List Nat) (p : PPU)
    (ha : p.sprite_data_address < 256) :
    (p.write_OAM_list vs).sprite_data_address =
      (p.sprite_data_address + vs.length) % 256 := by
  induction vs generalizing p with
  | nil =>
    simp [PPU.write_OAM_list, Nat.mod_eq_of_lt ha]
  | cons v vs ih =>
    have h1 : (p.set_OAM_data v).sprite_data_address =
        (p.sprite_data_address + 1) % 256 := rfl
    have h2 := ih (p.set_OAM_data v) (by rw [h1]; exact Nat.mod_lt _ (by omega))
    simp only [PPU.write_OAM_list, List.foldl_cons] at *
    rw [h2, h1, Nat.mod_add_mod]
    congr 1
    simp [List.length_cons]
    omega

theorem write_OAM_frame (vs : List Nat) (p : PPU) (t : Nat)
    (ha : p.sprite_data_address < 256)
    (h : ∀ j, j < vs.length → (p.sprite_data_address + j) % 256 ≠ t) :
    (p.write_OAM_list vs).sprite_memory.data.getD t 0 =
      p.sprite_memory.data.getD t 0 := by
  induction vs generalizing p with
  | nil => rfl
  | cons v vs ih =>
    have haddr : (p.set_OAM_data v).sprite_data_address =
        (p.sprite_data_address + 1) % 256 := rfl
    have hstep := ih (p.set_OAM_data v)
      (by rw [haddr]; exact Nat.mod_lt _ (by omega))
      (by
        intro j hj
        rw [haddr, Nat.mod_add_mod]
        have := h (j + 1) (by simpa [List.length_cons] using Nat.succ_lt_succ hj)
        simpa [Nat.add_assoc, Nat.add_comm 1 j] using this)
    simp only [PPU.write_OAM_list, List.foldl_cons] at *
    rw [hstep]
    have ht : t ≠ p.sprite_data_address := by
      have h0 := h 0 (by simp)
      rw [Nat.add_zero, Nat.mod_eq_of_lt ha] at h0
      exact fun hc => h0 hc.symm
    exact list_getD_set_ne _ _ _ _ _ ht

theorem write_OAM_get (vs : List Nat) (p : PPU) (i : Nat)
    (hmem : p.sprite_memory.data.length = 256)
    (ha : p.sprite_data_address < 256)
    (hlen : vs.length ≤ 256) (hi : i < vs.length)
    (hbytes : ∀ v ∈ vs, v < 256) :
    (p.write_OAM_list vs).sprite_memory.data.getD
      ((p.sprite_data_address + i) % 256) 0 = vs.getD i 0 := by
  induction vs generalizing p i with
  | nil => simp at hi
  | cons v vs ih =>
    have haddr : (p.set_OAM_data v).sprite_data_address =
        (p.sprite_data_address + 1) % 256 := rfl
    have hmem1 : (p.set_OAM_data v).sprite_memory.data.length = 256 := by
      simpa [PPU.set_OAM_data] using hmem
    have ha1 : (p.set_OAM_data v).sprite_data_address < 256 := by
      rw [haddr]; exact Nat.mod_lt _ (by omega)
    cases i with
    | zero =>
      simp only [PPU.write_OAM_list, List.foldl_cons, Nat.add_zero,
        Nat.mod_eq_of_lt ha, List.getD_cons_zero]
      have hframe := write_OAM_frame vs (p.set_OAM_data v) p.sprite_data_address
        ha1
        (by
          intro j hj
          rw [haddr, Nat.mod_add_mod]
          have hjlt : 1 + j < 256 := by
            have := List.length_cons v vs ▸ hlen
            omega
          intro hc
          omega)
      simp only [PPU.write_OAM_list] at hframe
      rw [hframe]
      have : (p.set_OAM_data v).sprite_memory.data =
          p.sprite_memory.data.set p.sprite_data_address (v % 256) := rfl
      rw [this, list_getD_set_eq _ _ _ _ (by omega)]
      exact Nat.mod_eq_of_lt (hbytes v (by simp))
    | succ i =>
      simp only [PPU.write_OAM_list, List.foldl_cons, List.getD_cons_succ]
      have := ih (p.set_OAM_data v) i hmem1 ha1
        (by have := List.length_cons v vs ▸ hlen; omega)
        (by simpa [List.length_cons] using hi)
        (fun w hw => hbytes w (by simp [hw]))
      rw [haddr, Nat.mod_add_mod] at this
      simpa [Nat.add_assoc, Nat.add_comm 1 i] using this

/-- Claim C5: writing a starting address a through the OAM address register
and then writing any 256 bytes through the OAM data register leaves OAM
memory equal to those bytes in write order, starting at a and wrapping from
255 back to 0; each OAM data write post-increments the OAM address mod 256,
and an OAM data read leaves the OAM address (indeed the whole PPU state)
unchanged. -/
theorem C5_OAM_write_round (p : PPU) (a : Nat) (vs : List Nat)
    (hmem : p.sprite_memory.data.length = 256)
    (hlen : vs.length = 256) (hbytes : ∀ v ∈ vs, v < 256) :
    (∀ i, i < 256 →
      ((p.set_OAM_address a).write_OAM_list vs).sprite_memory.data.getD
        ((a % 256 + i) % 256) 0 = vs.getD i 0)
    ∧ (∀ (q : PPU) (v : Nat),
        (q.set_OAM_data v).sprite_data_address = (q.sprite_data_address + 1) % 256)
    ∧ (∀ q : PPU, (PPU.get_OAM_data q).2 = q) := by
  refine ⟨?_, fun q v => rfl, fun q => rfl⟩
  intro i hi
  have h := write_OAM_get vs (p.set_OAM_address a) i
    (by simpa [PPU.set_OAM_address] using hmem)
    (Nat.mod_lt _ (by omega))
    (by omega) (by omega) hbytes
  simpa [PPU.set_OAM_address] using h

/-- Witness for C5 at a concrete PPU state and byte list. -/
theorem C5_witness :
    (sample_ppu.sprite_memory.data.length = 256
      ∧ (List.replicate 256 (7 : Nat)).length = 256
      ∧ ∀ v ∈ List.replicate 256 (7 : Nat), v < 256)
    ∧ ((∀ i, i < 256 →
        ((sample_ppu.set_OAM_address 3).write_OAM_list
          (List.replicate 256 (7 : Nat))).sprite_memory.data.getD
          ((3 % 256 + i) % 256) 0 = (List.replicate 256 (7 : Nat)).getD i 0)
      ∧ (∀ (q : PPU) (v : Nat),
          (q.set_OAM_data v).sprite_data_address =
            (q.sprite_data_address + 1) % 256)
      ∧ (∀ q : PPU, (PPU.get_OAM_data q).2 = q)) := by
  have hyp : sample_ppu.sprite_memory.data.length = 256
      ∧ (List.replicate 256 (7 : Nat)).length = 256
      ∧ ∀ v ∈ List.replicate 256 (7 : Nat), v < 256 := by
    refine ⟨?_, ?_, ?_⟩
    · show (List.replicate (64 * 4) (0 : Nat)).length = 256
      rw [List.length_replicate]
    · rw [List.length_replicate]
    · intro v hv
      have := List.eq_of_mem_replicate hv
      omega
  exact ⟨hyp, C5_OAM_write_round sample_ppu 3 _ hyp.1 hyp.2.1 hyp.2.2⟩

/-- Claim C10: every OAM access through the register interface is in bounds:
whenever the sprite data address is a byte value it indexes a valid cell of
the 64 * 4 = 256 byte OAM, both register writes keep the address a byte
value, and a data write never changes the size of the OAM backing store. -/
theorem C10_OAM_access_in_bounds (p : PPU) (h : p.sprite_data_address < 256)
    (a v : Nat) :
    p.sprite_data_address < OAM_SIZE
    ∧ (p.set_OAM_address a).sprite_data_address < OAM_SIZE
    ∧ (p.set_OAM_data v).sprite_data_address < OAM_SIZE
    ∧ (p.sprite_memory.data.length = OAM_SIZE →
        (p.set_OAM_data v).sprite_memory.data.length = OAM_SIZE) := by
  refine ⟨by simpa [OAM_SIZE] using h, ?_, ?_, ?_⟩
  · show a % 256 < OAM_SIZE
    have := Nat.mod_lt a (show 0 < 256 by omega)
    simpa [OAM_SIZE] using this
  · show (p.sprite_data_address + 1) % 256 < OAM_SIZE
    have := Nat.mod_lt (p.sprite_data_address + 1) (show 0 < 256 by omega)
    simpa [OAM_SIZE] using this
  · intro hl
    simpa [PPU.set_OAM_data] using hl

/-- Witness for C10 at a concrete PPU state. -/
theorem C10_witness :
    sample_ppu.sprite_data_address < 256
    ∧ (sample_ppu.sprite_data_address < OAM_SIZE
      ∧ (sample_ppu.set_OAM_address 300).sprite_data_address < OAM_SIZE
      ∧ (sample_ppu.set_OAM_data 999).sprite_data_address < OAM_SIZE
      ∧ (sample_ppu.sprite_memory.data.length = OAM_SIZE →
          (sample_ppu.set_OAM_data 999).sprite_memory.data.length = OAM_SIZE)) :=
  ⟨by decide, C10_OAM_access_in_bounds sample_ppu (by decide) 300 999⟩

/-- Claim C8: during the vertical-blank scanlines, reading the PPU status
register reports the vblank flag in bit 7, clears the flag and resets the
first-write address latch, staying in the same blanking period; a second
consecutive status read therefore observes the vblank flag already cleared. -/
theorem C8_status_read_clears_vblank (p : PPU)
    (hstate : p.pipeline_state = .VERTICAL_BLANK) (hv : p.is_vblank = true) :
    Nat.testBit (p.get_status).1 7 = true
    ∧ (p.get_status).2.is_vblank = false
    ∧ (p.get_status).2.is_first_write = true
    ∧ (p.get_status).2.pipeline_state = .VERTICAL_BLANK
    ∧ Nat.testBit ((p.get_status).2.get_status).1 7 = false := by
  cases hz : p.is_sprite_zero_hit <;>
    simp [PPU.get_status, hv, hz, hstate] <;> decide

theorem list_take_set_succ {α : Type} (l : List α) (k : Nat) (v : α)
    (h : k < l.length) : (l.set k v).take (k + 1) = l.take k ++ [v] := by
  induction l generalizing k with
  | nil => simp at h
  | cons a l ih =>
    cases k with
    | zero => simp
    | succ k =>
      simp only [List.set_cons_succ, List.take_succ_cons, List.cons_append,
        List.cons.injEq, true_and]
      exact ih k (by simpa using h)

theorem collect8_invariant (sel : Nat → Bool) (l : List Nat)
    (b : static_vector 8 Nat) (done : List Nat)
    (hres : b.reserved_size = 8) (hlen : b.data.length = 8)
    (hsz : b.current_size = min (done.filter sel).length 8)
    (htake : b.data.take b.current_size = (done.filter sel).take 8) :
    (collect8 sel l b).reserved_size = 8
    ∧ (collect8 sel l b).data.length = 8
    ∧ (collect8 sel l b).current_size = min ((done ++ l).filter sel).length 8
    ∧ (collect8 sel l b).data.take (collect8 sel l b).current_size
        = ((done ++ l).filter sel).take 8 := by
  induction l generalizing b done with
  | nil =>
    simpa [collect8] using ⟨hres, hlen, hsz, htake⟩
  | cons i l ih =>
    have hstep : collect8 sel (i :: l) b
        = collect8 sel l (if sel i then sprite_push b i else b) := by
      simp [collect8]
    rw [hstep]
    have hassoc : done ++ i :: l = (done ++ [i]) ++ l := by simp
    rw [hassoc]
    by_cases hsel : sel i
    · have hfi : (done ++ [i]).filter sel = done.filter sel ++ [i] := by
        simp [List.filter_append, hsel]
      have hchoice := min_choice (done.filter sel).length 8
      by_cases hfull : b.current_size < 8
      · -- room in the buffer: the sprite is pushed
        have hcur : b.current_size = (done.filter sel).length := by
          rcases hchoice with hc | hc <;> omega
        have hpush : sprite_push b i =
            { b with data := b.data.set b.current_size i,
                     current_size := b.current_size + 1 } := by
          simp only [sprite_push, hres]
          rw [if_pos hfull]
          simp [static_vector.push_back, hres, Nat.not_le.mpr hfull]
        rw [if_pos hsel, hpush]
        refine ih _ _ hres (by simpa using hlen) ?_ ?_
        · show b.current_size + 1 = min ((done ++ [i]).filter sel).length 8
          rw [hfi, List.length_append]
          simp only [List.length_singleton]
          omega
        · show (b.data.set b.current_size i).take (b.current_size + 1)
            = ((done ++ [i]).filter sel).take 8
          have hF8 : (done.filter sel).take 8 = done.filter sel :=
            List.take_of_length_le (by omega)
          have hFi8 : (done.filter sel ++ [i]).take 8
              = done.filter sel ++ [i] :=
            List.take_of_length_le
              (by rw [List.length_append]; simp only [List.length_singleton]; omega)
          rw [list_take_set_succ _ _ _ (by omega), hfi, hFi8, htake, hF8]
      · -- buffer already holds 8 sprites: the sprite is dropped
        have hcur : b.current_size = 8 := by
          rcases hchoice with hc | hc <;> omega
        have hflen : 8 ≤ (done.filter sel).length := by
          rcases hchoice with hc | hc <;> omega
        have hpush : sprite_push b i = b := by
          simp [sprite_push, hres, hfull]
        rw [if_pos hsel, hpush]
        refine ih _ _ hres hlen ?_ ?_
        · rw [hfi, List.length_append]
          simp only [List.length_singleton]
          omega
        · rw [hfi, htake, List.take_append_of_le_length hflen]
    · have hfi : (done ++ [i]).filter sel = done.filter sel := by
        simp [List.filter_append, hsel]
      rw [if_neg hsel]
      refine ih _ _ hres hlen (by rw [hfi]; exact hsz) (by rw [hfi]; exact htake)

/-- Claim C6: sprite evaluation never retains more than 8 entries in the
scanline-sprite buffer, whatever the PPU state and scanline: the evaluated
buffer holds exactly the first 8 intersecting OAM sprite indices (in OAM
order) and drops the 9th and later intersecting sprites; and a PPU cycle
preserves the 8-entry bound of the buffer. -/
theorem C6_sprite_buffer_limit (p : PPU) (fb : NESFrameBufferT)
    (h : p.scanline_sprites.current_size ≤ 8) :
    p.evaluate_sprites.scanline_sprites.current_size ≤ 8
    ∧ p.evaluate_sprites.scanline_sprites.data.take
        p.evaluate_sprites.scanline_sprites.current_size
      = ((List.range 64).filter p.sprite_in_range).take 8
    ∧ p.evaluate_sprites.scanline_sprites.current_size
      = min ((List.range 64).filter p.sprite_in_range).length 8
    ∧ (p.cycle fb).1.scanline_sprites.current_size ≤ 8 := by
  have base := collect8_invariant p.sprite_in_range (List.range 64)
    (static_vector.empty 8 0) []
    rfl (List.length_replicate _ _) (by simp [static_vector.empty])
    (by simp [static_vector.empty])
  simp only [List.nil_append] at base
  obtain ⟨hres, hlen, hsz, htake⟩ := base
  have hev : p.evaluate_sprites.scanline_sprites
      = collect8 p.sprite_in_range (List.range 64)
          (static_vector.empty 8 0) := rfl
  refine ⟨by rw [hev, hsz]; omega, by rw [hev, htake], by rw [hev, hsz], ?_⟩
  have hbound : p.evaluate_sprites.scanline_sprites.current_size ≤ 8 := by
    rw [hev, hsz]; omega
  unfold PPU.cycle
  cases p.pipeline_state
  all_goals simp only []
  all_goals repeat' split
  all_goals first
    | simpa using h
    | simpa using hbound

/-- Witness for C6 at a concrete PPU state and empty framebuffer. -/
theorem C6_witness :
    sample_ppu.scanline_sprites.current_size ≤ 8
    ∧ (sample_ppu.evaluate_sprites.scanline_sprites.current_size ≤ 8
      ∧ sample_ppu.evaluate_sprites.scanline_sprites.data.take
          sample_ppu.evaluate_sprites.scanline_sprites.current_size
        = ((List.range 64).filter sample_ppu.sprite_in_range).take 8
      ∧ sample_ppu.evaluate_sprites.scanline_sprites.current_size
        = min ((List.range 64).filter sample_ppu.sprite_in_range).length 8
      ∧ (sample_ppu.cycle []).1.scanline_sprites.current_size ≤ 8) :=
  ⟨by decide, C6_sprite_buffer_limit sample_ppu [] (by decide)⟩

/-- Witness for C8 at a concrete PPU state inside vertical blank. -/
theorem C8_witness :
    (sample_ppu.pipeline_state = .VERTICAL_BLANK ∧ sample_ppu.is_vblank = true)
    ∧ (Nat.testBit (sample_ppu.get_status).1 7 = true
      ∧ (sample_ppu.get_status).2.is_vblank = false
      ∧ (sample_ppu.get_status).2.is_first_write = true
      ∧ (sample_ppu.get_status).2.pipeline_state = .VERTICAL_BLANK
      ∧ Nat.testBit ((sample_ppu.get_status).2.get_status).1 7 = false) :=
  ⟨⟨rfl, rfl⟩, C8_status_read_clears_vblank sample_ppu rfl rfl⟩

theorem static_vector.wf_empty {N : Nat} {α : Type} (z : α) :
    (static_vector.empty N z).WF := by
  refine ⟨List.length_replicate _ _, Nat.zero_le _, Nat.le_refl _⟩

theorem static_vector.wf_apply {N : Nat} {α : Type} {v w : static_vector N α}
    {op : SVOp α} (hv : v.WF) (h : v.apply op = .ok w) : w.WF := by
  obtain ⟨hlen, hcr, hrn⟩ := hv
  cases op with
  | push_back value =>
    simp only [static_vector.apply, static_vector.push_back] at h
    split at h
    · exact absurd h (by simp)
    · simp only [Except.ok.injEq] at h
      subst h
      refine ⟨by simpa using hlen, ?_, hrn⟩
      show v.current_size + 1 ≤ v.reserved_size
      omega
  | reserve new_capacity =>
    simp only [static_vector.apply, static_vector.reserve] at h
    split at h
    · exact absurd h (by simp)
    · simp only [Except.ok.injEq] at h
      subst h
      refine ⟨hlen, Nat.min_le_right _ _, ?_⟩
      show new_capacity ≤ N
      omega
  | resize new_size =>
    simp only [static_vector.apply, static_vector.resize] at h
    split at h
    · exact absurd h (by simp)
    · simp only [Except.ok.injEq] at h
      subst h
      refine ⟨hlen, ?_, hrn⟩
      show new_size ≤ v.reserved_size
      omega
  | clear =>
    simp only [static_vector.apply, static_vector.clear,
      Except.ok.injEq] at h
    subst h
    exact ⟨hlen, Nat.zero_le _, hrn⟩

theorem static_vector.wf_run {N : Nat} {α : Type} (ops : List (SVOp α))
    (v : static_vector N α) (hv : v.WF) : (v.run ops).WF := by
  induction ops generalizing v with
  | nil => exact hv
  | cons op ops ih =>
    simp only [static_vector.run, List.foldl_cons]
    rcases hop : v.apply op with e | w
    · simpa [static_vector.run, hop] using ih v hv
    · simpa [static_vector.run, hop] using ih w (static_vector.wf_apply hv hop)

/-- Claim C9: for every static_vector and every sequence of push_back,
reserve, resize and clear operations, the invariant
current_size ≤ reserved_size ≤ N is preserved; push_back on a full container
raises a length error without writing any element; reserve beyond the fixed
capacity and resize beyond the reserved capacity raise a length error leaving
the length state unchanged; and a successful push_back writes only to the
in-bounds slot current_size < N, so no out-of-bounds write ever occurs. -/
theorem C9_static_vector_safety {N : Nat} {α : Type} (v : static_vector N α)
    (x : α) (n : Nat) (ops : List (SVOp α)) (hv : v.WF) :
    (v.run ops).WF
    ∧ (v.reserved_size ≤ v.current_size →
        v.push_back x = .error "static_vector: container is full")
    ∧ (N < n →
        v.reserve n = .error "static_vector: cannot reserve beyond max capacity")
    ∧ (v.reserved_size < n →
        v.resize n = .error "static_vector: cannot resize beyond reserved capacity")
    ∧ (∀ w : static_vector N α, v.push_back x = .ok w →
        v.current_size < N ∧ w.data = v.data.set v.current_size x) := by
  refine ⟨static_vector.wf_run ops v hv, ?_, ?_, ?_, ?_⟩
  · intro h
    simp [static_vector.push_back, h]
  · intro h
    simp [static_vector.reserve, h]
  · intro h
    simp [static_vector.resize, h]
  · intro w h
    simp only [static_vector.push_back] at h
    split at h
    · exact absurd h (by simp)
    · simp only [Except.ok.injEq] at h
      subst h
      obtain ⟨hlen, hcr, hrn⟩ := hv
      exact ⟨by omega, rfl⟩

theorem core_step_trace (s : EngineState) :
    (Core.step s).2
      = [Event.ppuCycle, Event.ppuCycle, Event.ppuCycle, Event.cpuCycle] := rfl

theorem core_steps_trace (n : Nat) (s : EngineState) :
    (core_steps n s).2
      = (List.replicate n
          [Event.ppuCycle, Event.ppuCycle, Event.ppuCycle,
           Event.cpuCycle]).flatten := by
  induction n generalizing s with
  | zero => rfl
  | succ m ih =>
    simp only [core_steps, core_step_trace, ih, List.replicate_succ,
      List.flatten_cons]

theorem core_steps_cpu_count (n : Nat) (s : EngineState) :
    ((core_steps n s).2).count Event.cpuCycle = n := by
  induction n generalizing s with
  | zero => rfl
  | succ m ih =>
    simp only [core_steps, List.count_append, ih, core_step_trace]
    have h1 : List.count Event.cpuCycle
        [Event.ppuCycle, Event.ppuCycle, Event.ppuCycle, Event.cpuCycle]
        = 1 := by decide
    omega

/-- Claim C3: every invocation of Core.step advances the PPU exactly three
times and then the CPU exactly once, in that order, with no other component
advanced: its event trace is exactly three PPU cycles followed by one CPU
cycle, for every engine state and framebuffer. -/
theorem C3_core_step_order (s : EngineState) :
    (Core.step s).2
      = [Event.ppuCycle, Event.ppuCycle, Event.ppuCycle, Event.cpuCycle] :=
  core_step_trace s

/-- Claim C4: every invocation of Emulator.step performs exactly
CYCLES_PER_FRAME = 29781 Core.step invocations regardless of the engine
state — its trace is the fixed per-frame repetition of the Core.step trace,
so it contains exactly CYCLES_PER_FRAME CPU cycles — and the constant is
sufficient to cover one full NTSC frame of (FRAME_END_SCANLINE + 1)
scanlines of SCANLINE_CYCLE_LENGTH dots at three dots per cycle. -/
theorem C4_fixed_frame_cycle_count (s : EngineState) :
    (Emulator.step s).2
      = (List.replicate CYCLES_PER_FRAME
          [Event.ppuCycle, Event.ppuCycle, Event.ppuCycle,
           Event.cpuCycle]).flatten
    ∧ ((Emulator.step s).2).count Event.cpuCycle = CYCLES_PER_FRAME
    ∧ CYCLES_PER_FRAME = 29781
    ∧ (FRAME_END_SCANLINE + 1) * SCANLINE_CYCLE_LENGTH
        ≤ 3 * CYCLES_PER_FRAME :=
  ⟨core_steps_trace _ _, core_steps_cpu_count _ _, rfl, by decide⟩

/-- Claim C1: snapshot to a valid slot immediately followed by restore from
the same slot succeeds and leaves the live engine — CPU registers, PPU
timing state, RAM, controllers, framebuffer — byte-for-byte identical to the
pre-snapshot state; stepping any number of Core cycles afterwards produces
exactly the same states as stepping from the original point, and the
register-dispatch tables and the interrupt wiring are preserved, because
restore copies Core values in place. -/
theorem C1_snapshot_restore_roundtrip (e : Emulator) (slot : Int)
    (h : 0 ≤ slot ∧ slot.toNat < e.backup_slots.length) :
    ((e.backup slot).2.restore slot).1 = none
    ∧ ((e.backup slot).2.restore slot).2.engine = e.engine
    ∧ (∀ n : Nat,
        (core_steps n ((e.backup slot).2.restore slot).2.engine).1
          = (core_steps n e.engine).1)
    ∧ ((e.backup slot).2.restore slot).2.engine.core.bus.read_callbacks
        = e.engine.core.bus.read_callbacks
    ∧ ((e.backup slot).2.restore slot).2.engine.core.bus.write_callbacks
        = e.engine.core.bus.write_callbacks
    ∧ ((e.backup slot).2.restore slot).2.engine.core.ppu.vblank_callback
        = e.engine.core.ppu.vblank_callback := by
  have hb : (e.backup slot).2
      = { e with backup_slots :=
            e.backup_slots.set slot.toNat e.snapshot } := by
    simp [Emulator.backup, h.1, h.2]
  have hcond : 0 ≤ slot
      ∧ slot.toNat < ((e.backup slot).2).backup_slots.length := by
    rw [hb]
    simpa using h
  have hget : ((e.backup slot).2).backup_slots.getD slot.toNat
      ((e.backup slot).2).engine.core = e.engine.core := by
    rw [hb]
    exact list_getD_set_eq _ _ _ _ h.2
  have hr : (e.backup slot).2.restore slot
      = (none, ((e.backup slot).2).restore_core e.engine.core) := by
    rw [Emulator.restore, if_pos hcond, hget]
  have heng : ((e.backup slot).2.restore slot).2.engine = e.engine := by
    rw [hr, hb]
    rfl
  refine ⟨by rw [hr], heng, fun n => by rw [heng], ?_, ?_, ?_⟩ <;> rw [heng]

/-- Witness for C1 at a concrete emulator and slot. -/
theorem C1_witness :
    (0 ≤ (0 : Int)
      ∧ (0 : Int).toNat < sample_emulator.backup_slots.length)
    ∧ (((sample_emulator.backup 0).2.restore 0).1 = none
      ∧ ((sample_emulator.backup 0).2.restore 0).2.engine
          = sample_emulator.engine
      ∧ (∀ n : Nat,
          (core_steps n
            ((sample_emulator.backup 0).2.restore 0).2.engine).1
            = (core_steps n sample_emulator.engine).1)
      ∧ ((sample_emulator.backup 0).2.restore
          0).2.engine.core.bus.read_callbacks
          = sample_emulator.engine.core.bus.read_callbacks
      ∧ ((sample_emulator.backup 0).2.restore
          0).2.engine.core.bus.write_callbacks
          = sample_emulator.engine.core.bus.write_callbacks
      ∧ ((sample_emulator.backup 0).2.restore
          0).2.engine.core.ppu.vblank_callback
          = sample_emulator.engine.core.ppu.vblank_callback) := by
  have h : 0 ≤ (0 : Int)
      ∧ (0 : Int).toNat < sample_emulator.backup_slots.length := by
    refine ⟨by decide, ?_⟩
    show (0 : Int).toNat < (List.replicate 4 sample_engine.core).length
    rw [List.length_replicate]
    decide
  exact ⟨h, C1_snapshot_restore_roundtrip sample_emulator 0 h⟩

/-- Claim C2: restoring from a slot index outside the valid range of backup
slots is rejected with a reported error and leaves the whole emulator —
Core, RAM, framebuffer — unmodified. -/
theorem C2_out_of_range_restore_rejected (e : Emulator) (slot : Int)
    (h : slot < 0 ∨ (e.backup_slots.length : Int) ≤ slot) :
    ((e.restore slot).1).isSome = true
    ∧ (e.restore slot).2 = e
    ∧ (e.restore slot).2.engine.core = e.engine.core
    ∧ (e.restore slot).2.engine.core.bus.ram = e.engine.core.bus.ram
    ∧ (e.restore slot).2.engine.framebuffer = e.engine.framebuffer := by
  have hc : ¬(0 ≤ slot ∧ slot.toNat < e.backup_slots.length) := by
    rintro ⟨h1, h2⟩
    rcases h with h | h <;> omega
  rw [Emulator.restore, if_neg hc]
  exact ⟨rfl, rfl, rfl, rfl, rfl⟩

/-- Witness for C2 at a concrete emulator and out-of-range slot. -/
theorem C2_witness :
    ((9 : Int) < 0
      ∨ (sample_emulator.backup_slots.length : Int) ≤ 9)
    ∧ (((sample_emulator.restore 9).1).isSome = true
      ∧ (sample_emulator.restore 9).2 = sample_emulator
      ∧ (sample_emulator.restore 9).2.engine.core
          = sample_emulator.engine.core
      ∧ (sample_emulator.restore 9).2.engine.core.bus.ram
          = sample_emulator.engine.core.bus.ram
      ∧ (sample_emulator.restore 9).2.engine.framebuffer
          = sample_emulator.engine.framebuffer) := by
  have h : (9 : Int) < 0
      ∨ (sample_emulator.backup_slots.length : Int) ≤ 9 := by
    right
    show ((List.replicate 4 sample_engine.core).length : Int) ≤ 9
    rw [List.length_replicate]
    decide
  exact ⟨h, C2_out_of_range_restore_rejected sample_emulator 9 h⟩

theorem reset_scrubs_junk (j1c j2c : CPU) (j1p j2p : PPU) (m : Mapper)
    (inputs : Nat × Nat) :
    Emulator.reset (construct_engine j1c j1p m inputs)
      = Emulator.reset (construct_engine j2c j2p m inputs) := rfl

/-- Claim C7: the engine is deterministic as a function of the cartridge and
the controller inputs: for any cartridge mapper, any boot-time controller
bytes and any per-frame input schedule, two runs from reset — differing only
in the junk the C++ constructors leave in the uninitialized CPU and PPU
members — produce bit-for-bit identical framebuffer and RAM contents after
stepping any number of full frames. -/
theorem C7_determinism (j1c j2c : CPU) (j1p j2p : PPU) (m : Mapper)
    (boot_inputs : Nat × Nat) (schedule : List (Nat × Nat)) :
    (run_frames (Emulator.reset (construct_engine j1c j1p m boot_inputs))
        schedule).framebuffer
      = (run_frames (Emulator.reset (construct_engine j2c j2p m boot_inputs))
          schedule).framebuffer
    ∧ (run_frames (Emulator.reset (construct_engine j1c j1p m boot_inputs))
        schedule).core.bus.ram
      = (run_frames (Emulator.reset (construct_engine j2c j2p m boot_inputs))
          schedule).core.bus.ram := by
  rw [reset_scrubs_junk j1c j2c j1p j2p m boot_inputs]
  exact ⟨rfl, rfl⟩

/-- Witness for C9 at a concrete container: the empty 4-slot byte vector is
well-formed and the safety conjunction holds for it on a concrete operation
sequence. -/
theorem C9_witness :
    (static_vector.empty 4 (0 : Nat)).WF
    ∧ ((static_vector.empty 4 (0 : Nat)).run
        [.push_back 7, .reserve 2, .push_back 9, .push_back 5, .resize 9]).WF
    ∧ ((static_vector.empty 4 (0 : Nat)).reserved_size ≤
        (static_vector.empty 4 (0 : Nat)).current_size →
        (static_vector.empty 4 (0 : Nat)).push_back 3 =
          .error "static_vector: container is full")
    ∧ (4 < 6 → (static_vector.empty 4 (0 : Nat)).reserve 6 =
        .error "static_vector: cannot reserve beyond max capacity")
    ∧ ((static_vector.empty 4 (0 : Nat)).reserved_size < 6 →
        (static_vector.empty 4 (0 : Nat)).resize 6 =
        .error "static_vector: cannot resize beyond reserved capacity")
    ∧ (∀ w : static_vector 4 Nat,
        (static_vector.empty 4 (0 : Nat)).push_back 3 = .ok w →
        (static_vector.empty 4 (0 : Nat)).current_size < 4
        ∧ w.data = (static_vector.empty 4 (0 : Nat)).data.set
            (static_vector.empty 4 (0 : Nat)).current_size 3) := by
  refine ⟨by decide, ?_⟩
  have h := C9_static_vector_safety (static_vector.empty 4 (0 : Nat)) 3 6
    [.push_back 7, .reserve 2, .push_back 9, .push_back 5, .resize 9]
    (by decide)
  exact h

end NES
